import Mathlib

/-!
Verification of the voicemail-transcriber reconciliation pipeline.

This file gives a shallow embedding of the Go sources of
`voicemail-transcriber-production` and proves the testable properties of
its specification against that embedding.

Embedded code:
* `internal/gmail/handler.go` — `processedMessages`, `PubSubHandler`,
  `retrieveHistory` (the per-page, per-message reconciliation loop);
* the gmail utility file — `GetHeader`, `SaveAttachment`, `MarkAsRead`,
  `SaveHistoryIDToFirestore`, `LoadHistoryIDFromFirestore`;
* `internal/transcriber/transcriber.go` — `TranscribeAndRespond`,
  `extractTranscript`, `extractPhoneNumber`, `sendEmailResponse`.

Modelling conventions:
* external collaborators (Gmail fetch, address parsing, attachment
  download, Deepgram, SMTP send) are oracles carried in an `Env` record;
  each oracle answer is `Option`/`Bool`, covering both success and failure;
* the observable behaviour of one reconciliation lifetime is a list of
  `Event`s (fetch, attachment save, transcription call, local file
  removal, mark-as-read, cursor save);
* Go `uint64`/`int64` become `Nat`/`Int` with explicit wrap-around where
  the code converts; Go panics become `Except.error`.
-/

namespace Voicemail

/-- Message part of a Gmail payload: the two fields `retrieveHistory`
inspects, `part.Filename` and `part.Body.AttachmentId`. -/
structure MessagePart where
  filename : String
  attachmentId : String
deriving DecidableEq

/-- Full message as fetched with `Format("full")`: headers and parts. -/
structure FullMessage where
  headers : List (String × String)
  parts : List MessagePart
deriving DecidableEq

/-- Oracles for the external collaborators used by `retrieveHistory`.
`fetch` is `srv.Users.Messages.Get` (`none` = error), `parseAddr` is
`mail.ParseAddress` returning the parsed address (`none` = parse error),
`saveAttOk` tells whether `SaveAttachment` (attachment get + base64
decode + file write) succeeds, and `transcribeOk` tells whether
`transcriber.TranscribeAndRespond` returns without error. -/
structure Env where
  fetch : String → Option FullMessage
  parseAddr : String → Option String
  saveAttOk : String → MessagePart → Bool
  transcribeOk : String → String → Bool

/-- Observable effects of one reconciliation lifetime, in order. -/
inductive Event where
  | fetch (msgId : String) (ok : Bool)
  | saveAtt (msgId : String) (path : String) (ok : Bool)
  | transcribe (msgId : String) (path : String) (ok : Bool)
  | removeFile (msgId : String) (path : String)
  | markRead (msgId : String)
  | saveCursor (historyId : Nat)
deriving DecidableEq

/-- Message id an event belongs to (`saveCursor` belongs to none). -/
def Event.source : Event → Option String
  | .fetch m _ => some m
  | .saveAtt m _ _ => some m
  | .transcribe m _ _ => some m
  | .removeFile m _ => some m
  | .markRead m => some m
  | .saveCursor _ => none

/-- Events of a trace belonging to one message id. -/
def eventsFor (id : String) (evs : List Event) : List Event :=
  evs.filter (fun e => decide (e.source = some id))

/-- Whether an event is a fetch attempt for the given message id. -/
def isFetchEv (id : String) : Event → Bool
  | .fetch m _ => decide (m = id)
  | _ => false

/-- Whether an event is a transcription call for the given message id. -/
def isTranscribeEv (id : String) : Event → Bool
  | .transcribe m _ _ => decide (m = id)
  | _ => false

/-- Whether an event is an attachment-save call for the given message id. -/
def isSaveAttEv (id : String) : Event → Bool
  | .saveAtt m _ _ => decide (m = id)
  | _ => false

/-- Number of fetch attempts for a message id in a trace. -/
def fetchCount (id : String) (evs : List Event) : Nat :=
  (evs.filter (isFetchEv id)).length

/-- Number of transcription calls for a message id in a trace. -/
def transcribeCount (id : String) (evs : List Event) : Nat :=
  (evs.filter (isTranscribeEv id)).length

/-- Number of attachment-save calls for a message id in a trace. -/
def saveAttCount (id : String) (evs : List Event) : Nat :=
  (evs.filter (isSaveAttEv id)).length

/-- Embedding of `GetHeader` (gmail utilities): first header whose name
matches, empty string when absent. -/
def GetHeader (headers : List (String × String)) (name : String) : String :=
  match headers with
  | [] => ""
  | (n, v) :: rest => if n = name then v else GetHeader rest name

/-- The single allow-listed sender address from `retrieveHistory`. -/
def allowedSender : String := "noreply@btonephone.com"

/-- Local path `SaveAttachment` writes to: `filepath.Join("/tmp", part.Filename)`. -/
def attachmentPath (part : MessagePart) : String := "/tmp/" ++ part.filename

/-- Per-part body of the `for _, part := range msg.Payload.Parts` loop in
`retrieveHistory`: parts lacking a filename or an attachment id are
ignored; a failed `SaveAttachment` is logged and skipped (`continue`); on
a saved attachment the code calls `TranscribeAndRespond` (error only
logged), then unconditionally `os.Remove(filePath)` and `MarkAsRead`. -/
def processPart (env : Env) (msgId : String) (part : MessagePart) : List Event :=
  if part.filename ≠ "" ∧ part.attachmentId ≠ "" then
    if env.saveAttOk msgId part then
      [Event.saveAtt msgId (attachmentPath part) true,
       Event.transcribe msgId (attachmentPath part) (env.transcribeOk msgId (attachmentPath part)),
       Event.removeFile msgId (attachmentPath part),
       Event.markRead msgId]
    else [Event.saveAtt msgId (attachmentPath part) false]
  else []

/-- Sender gate and parts walk of the loop body in `retrieveHistory`:
read and parse the `From` header (parse failure → `continue`), skip
non-allow-listed senders (`continue`, not an error), else walk the
parts. -/
def processSenderGated (env : Env) (msgId : String) (msg : FullMessage) : List Event :=
  match env.parseAddr (GetHeader msg.headers "From") with
  | none => []
  | some addr =>
    if addr ≠ allowedSender then []
    else (msg.parts.map (processPart env msgId)).flatten

/-- Per-message body of the loop in `retrieveHistory`, after the dedup
gate: fetch the full message (failure → `continue`), then the sender
gate and parts walk. -/
def processMessage (env : Env) (msgId : String) : List Event :=
  match env.fetch msgId with
  | none => [Event.fetch msgId false]
  | some msg => Event.fetch msgId true :: processSenderGated env msgId msg

/-- Embedding of the dedup gate around `processedMessages`: the spec's
`markIfNew` — `if processedMessages[msgID] { continue };
processedMessages[msgID] = true`. The Go `map[string]bool` is modelled as
the list of recorded ids. -/
def markIfNew (processed : List String) (id : String) : Bool × List String :=
  if id ∈ processed then (false, processed) else (true, id :: processed)

/-- Dedup-gated walk over the message ids of one page (the flattening of
`resp.History[_].MessagesAdded[_].Message.Id`): an id already in
`processedMessages` is skipped with no effect; a new id is recorded
before its message is fetched and processed. -/
def processIds (env : Env) : List String → List String → List String × List Event
  | processed, [] => (processed, [])
  | processed, msgId :: rest =>
    if msgId ∈ processed then processIds env processed rest
    else
      let r := processIds env (msgId :: processed) rest
      (r.1, processMessage env msgId ++ r.2)

/-- One page of `srv.Users.History.List` results: whether `resp.History`
was nil, the message ids of its `messageAdded` records, and
`resp.HistoryId`. -/
structure Page where
  historyNil : Bool
  ids : List String
  historyId : Nat
deriving DecidableEq

/-- Page callback of `req.Pages` in `retrieveHistory`: a nil `History`
returns early (no cursor save); otherwise every id is walked behind the
dedup gate and, when `resp.HistoryId != 0`, the cursor is saved via
`SaveHistoryIDToFirestore` after the page is fully walked. -/
def processPage (env : Env) (processed : List String) (page : Page) :
    List String × List Event :=
  if page.historyNil then (processed, [])
  else
    let r := processIds env processed page.ids
    (r.1, r.2 ++ (if page.historyId ≠ 0 then [Event.saveCursor page.historyId] else []))

/-- Sequence of page callbacks sharing the process-global
`processedMessages` set: the pages of one pass, or of several passes of
one process lifetime run back to back. -/
def processPages (env : Env) : List String → List Page → List String × List Event
  | processed, [] => (processed, [])
  | processed, pg :: rest =>
    let r := processPage env processed pg
    let r2 := processPages env r.1 rest
    (r2.1, r.2 ++ r2.2)

/-- Trace of a whole process lifetime: all pages delivered to
`retrieveHistory` across all its invocations, starting from the empty
`processedMessages` map. -/
def lifetimeEvents (env : Env) (pages : List Page) : List Event :=
  (processPages env [] pages).2

/-- Ids a page actually offers to the loop (a nil-History page offers
none: the callback returns before iterating). -/
def Page.effIds (page : Page) : List String :=
  if page.historyNil then [] else page.ids

/-- Ids offered by a sequence of pages. -/
def effIds (pages : List Page) : List String :=
  (pages.map Page.effIds).flatten

/-! ## Checkpoint store (`SaveHistoryIDToFirestore` / `LoadHistoryIDFromFirestore`) -/

/-- Go `int64(id)` applied to a `uint64`: two's-complement wrap. -/
def toInt64 (id : Nat) : Int :=
  if id % 2 ^ 64 < 2 ^ 63 then ((id % 2 ^ 64 : Nat) : Int)
  else ((id % 2 ^ 64 : Nat) : Int) - 2 ^ 64

/-- Firestore document `gmail_state/history`: the stored `historyId`
field, `none` before the first save. -/
structure FirestoreState where
  historyDoc : Option Int
deriving DecidableEq

/-- Embedding of `SaveHistoryIDToFirestore`: a plain `Set` of the
document, storing `int64(id)` — an unconditional overwrite of whatever
was stored, with no comparison against the previous value. -/
def SaveHistoryIDToFirestore (st : FirestoreState) (id : Nat) : FirestoreState :=
  { historyDoc := some (toInt64 id) }

/-- Embedding of `LoadHistoryIDFromFirestore`: reads the document and
converts the stored `int64` back with `uint64(v)`; a missing document or
field is an error (`none`). -/
def LoadHistoryIDFromFirestore (st : FirestoreState) : Option Nat :=
  match st.historyDoc with
  | none => none
  | some v => some ((v % 2 ^ 64).toNat)

/-! ## Local file system, for the cleanup invariant -/

/-- Effect of a trace on the set of local files, as a membership
predicate: a successful `SaveAttachment` creates the path, `os.Remove`
deletes it, everything else leaves the file system alone. -/
def applyFS (evs : List Event) (fs : String → Bool) : String → Bool :=
  match evs with
  | [] => fs
  | Event.saveAtt _ path true :: rest =>
    applyFS rest (fun p => if p = path then true else fs p)
  | Event.removeFile _ path :: rest =>
    applyFS rest (fun p => if p = path then false else fs p)
  | _ :: rest => applyFS rest fs

/-! ## Notification entry point (`PubSubHandler`) -/

/-- Pass-level failures of `req.Pages` in `retrieveHistory`: the Gmail
history list call failing (expired start cursor, auth failure, network). -/
inductive PassError where
  | expiredCursor
  | mailboxAuth
  | transient
deriving DecidableEq

/-- Decoding outcomes for the Pub/Sub push envelope in `PubSubHandler`:
body read failure, outer JSON failure, base64 failure, inner JSON
failure, or a decoded notification. -/
inductive Envelope where
  | badRead
  | badJson
  | badBase64
  | badInner
  | ok (emailAddress : String) (historyId : Nat)
deriving DecidableEq

/-- Embedding of `retrieveHistory`'s interaction with its caller: the Go
function has no return value — a `req.Pages` error is only logged
(`logger.Error.Printf`), so the pass error influences nothing in the
result, which is just the processed set and the event trace of the pages
that were delivered before the failure. -/
def retrieveHistory (env : Env) (processed : List String) (pages : List Page)
    (pagesErr : Option PassError) : List String × List Event :=
  processPages env processed pages

/-- Embedding of `PubSubHandler` as a function to the HTTP status it
writes, paired with the trace of the pass it ran. Stages in source
order: token-readiness gate (503), the four envelope-decoding failures
(400), default-client creation (500), Firestore-client creation
(`logger.Error.Fatalf` — process exit, modelled as `none`), Gmail
service creation (500), history-id load (`Fatalf` — `none`), then
`retrieveHistory` followed unconditionally by `WriteHeader(200)`. -/
def PubSubHandler (tokenReady : Bool) (envl : Envelope) (clientOk fsOk srvOk loadOk : Bool)
    (env : Env) (processed : List String) (pages : List Page) (pagesErr : Option PassError) :
    Option (Nat × List Event) :=
  if tokenReady = false then some (503, [])
  else
    match envl with
    | .badRead => some (400, [])
    | .badJson => some (400, [])
    | .badBase64 => some (400, [])
    | .badInner => some (400, [])
    | .ok _ _ =>
      if clientOk = false then some (500, [])
      else if fsOk = false then none
      else if srvOk = false then some (500, [])
      else if loadOk = false then none
      else some (200, (retrieveHistory env processed pages pagesErr).2)

/-! ## Transcriber (`internal/transcriber/transcriber.go`) -/

/-- Values produced by `json.Unmarshal` into `map[string]interface{}`:
null, booleans, numbers, strings, `[]interface{}` and
`map[string]interface{}`. The numeric payload is irrelevant to the
embedded code and kept as an `Int`. -/
inductive JVal where
  | null
  | bool (b : Bool)
  | num (n : Int)
  | str (s : String)
  | arr (elems : List JVal)
  | obj (fields : List (String × JVal))

/-- Lookup in a decoded JSON object (Go map indexing with the comma-ok
form: `none` = key absent). -/
def jlookup : List (String × JVal) → String → Option JVal
  | [], _ => none
  | (k, v) :: rest, key => if k = key then some v else jlookup rest key

/-- Default text `extractTranscript` falls back to. -/
def noTranscript : String := "No transcript available."

/-- Embedding of `extractTranscript`. Go's unchecked type assertions
(`results.(map[string]interface{})`, `channels.([]interface{})`,
`channelSlice[0].(map[string]interface{})`,
`alternatives.([]interface{})`,
`alternativeSlice[0].(map[string]interface{})`) panic when the value has
a different shape: those are `Except.error ()`. Only the final
`.(string)` on the transcript value uses the comma-ok form, so a
missing or non-string transcript falls through to the default. -/
def extractTranscript (resMap : List (String × JVal)) : Except Unit String :=
  match jlookup resMap "results" with
  | none => .ok noTranscript
  | some results =>
    match results with
    | .obj resultObj =>
      match jlookup resultObj "channels" with
      | none => .ok noTranscript
      | some channels =>
        match channels with
        | .arr channelSlice =>
          match channelSlice with
          | [] => .ok noTranscript
          | c0 :: _ =>
            match c0 with
            | .obj c0Obj =>
              match jlookup c0Obj "alternatives" with
              | none => .ok noTranscript
              | some alternatives =>
                match alternatives with
                | .arr alternativeSlice =>
                  match alternativeSlice with
                  | [] => .ok noTranscript
                  | a0 :: _ =>
                    match a0 with
                    | .obj a0Obj =>
                      match jlookup a0Obj "transcript" with
                      | none => .ok noTranscript
                      | some tv =>
                        match tv with
                        | .str t => .ok t
                        | _ => .ok noTranscript
                    | _ => .error ()
                | _ => .error ()
            | _ => .error ()
        | _ => .error ()
    | _ => .error ()

/-- Whether a decoded JSON value is an object (`map[string]interface{}`). -/
def JVal.isObj : JVal → Bool
  | .obj _ => true
  | _ => false

/-- Whether a decoded JSON value is an array (`[]interface{}`). -/
def JVal.isArr : JVal → Bool
  | .arr _ => true
  | _ => false

/-- Whether a decoded JSON value is a string. -/
def JVal.isStr : JVal → Bool
  | .str _ => true
  | _ => false

/-- ASCII word character of Go `regexp`'s `\b`: `[0-9A-Za-z_]`. -/
def isWordChar (c : Char) : Bool := c.isAlphanum || c == '_'

/-- Whether the pattern `\b07\d{9}\b` matches the character list `s` at
position `i`: eleven characters `07` + nine digits fit at `i`, the
previous character (if any) is not a word character, and the following
character (if any) is not a word character. -/
def phoneMatchAt (s : List Char) (i : Nat) : Bool :=
  decide (i + 11 ≤ s.length) &&
  (s.getD i ' ' == '0') && (s.getD (i + 1) ' ' == '7') &&
  ((List.range 9).all fun k => (s.getD (i + 2 + k) ' ').isDigit) &&
  (i == 0 || !(isWordChar (s.getD (i - 1) ' '))) &&
  !(isWordChar (s.getD (i + 11) ' '))

/-- Scan for the leftmost match position, starting at `i` with `fuel`
positions left to try. -/
def findPhoneIdxAux (s : List Char) : Nat → Nat → Option Nat
  | _, 0 => none
  | i, fuel + 1 => if phoneMatchAt s i then some i else findPhoneIdxAux s (i + 1) fuel

/-- Leftmost position where `\b07\d{9}\b` matches, the semantics of
`regexp.FindString` for this pattern. -/
def findPhoneIdx (s : List Char) : Option Nat :=
  findPhoneIdxAux s 0 (s.length + 1)

/-- Embedding of `extractPhoneNumber`: the first whole-word
`07`-plus-nine-digits match of the subject, or `"Unknown"` when the
pattern is absent (`FindString` then returns the empty string and the
code takes the fallback branch). -/
def extractPhoneNumber (subject : String) : String :=
  match findPhoneIdx subject.data with
  | some i => String.mk ((subject.data.drop i).take 11)
  | none => "Unknown"

/-- Reply body composed by `TranscribeAndRespond`:
`fmt.Sprintf("Caller: %s\n\n%s", phone, transcript)`. -/
def replyBody (subjectLine transcript : String) : String :=
  "Caller: " ++ extractPhoneNumber subjectLine ++ "\n\n" ++ transcript

/-- Arguments `TranscribeAndRespond` passes to `sendEmailResponse`. -/
structure EmailSendCall where
  recipient : String
  subject : String
  body : String
deriving DecidableEq

/-- Outcome of `TranscribeAndRespond`: transcription transport failure
(`dg.FromFile` error, returned as an error before any email handling);
a panic inside `extractTranscript`; or an email composed and handed to
`sendEmailResponse`, whose own success flag is the function's returned
error. -/
inductive TAROutcome where
  | transportErr
  | panicked
  | sent (call : EmailSendCall) (sendOk : Bool)
deriving DecidableEq

/-- Embedding of `TranscribeAndRespond` after the API-key load:
`fromFileResult` is the decoded Deepgram response (or transport error),
`sendOk` the outcome of the Gmail send, `responseAddr` the
`EMAIL_RESPONSE_ADDRESS` value. Whatever transcript `extractTranscript`
yields — including the empty string or the `noTranscript` default — the
code composes the reply and sends it; there is no emptiness check. -/
def TranscribeAndRespond (fromFileResult : Except Unit (List (String × JVal)))
    (sendOk : Bool) (responseAddr : String) (subjectLine : String) : TAROutcome :=
  match fromFileResult with
  | .error _ => .transportErr
  | .ok resMap =>
    match extractTranscript resMap with
    | .error _ => .panicked
    | .ok transcript =>
      .sent { recipient := responseAddr,
              subject := "Your Voicemail Transcription",
              body := replyBody subjectLine transcript } sendOk

/-! ## Trace lemmas -/

lemma processPart_source (env : Env) (id : String) (part : MessagePart) :
    ∀ e ∈ processPart env id part, e.source = some id := by
  intro e he
  unfold processPart at he
  split at he
  · split at he
    · simp only [List.mem_cons, List.not_mem_nil, or_false] at he
      rcases he with rfl | rfl | rfl | rfl <;> rfl
    · simp only [List.mem_cons, List.not_mem_nil, or_false] at he
      subst he; rfl
  · simp at he

lemma processSenderGated_source (env : Env) (id : String) (msg : FullMessage) :
    ∀ e ∈ processSenderGated env id msg, e.source = some id := by
  intro e he
  unfold processSenderGated at he
  split at he
  · simp at he
  · split at he
    · simp at he
    · rcases List.mem_flatten.mp he with ⟨l, hl, hel⟩
      rcases List.mem_map.mp hl with ⟨part, _, rfl⟩
      exact processPart_source env id part e hel

lemma processMessage_source (env : Env) (id : String) :
    ∀ e ∈ processMessage env id, e.source = some id := by
  intro e he
  unfold processMessage at he
  split at he
  · simp only [List.mem_cons, List.not_mem_nil, or_false] at he
    subst he; rfl
  · rcases List.mem_cons.mp he with rfl | h
    · rfl
    · exact processSenderGated_source env id _ e h

lemma eventsFor_append (id : String) (a b : List Event) :
    eventsFor id (a ++ b) = eventsFor id a ++ eventsFor id b :=
  List.filter_append ..

lemma eventsFor_other (env : Env) {id idOther : String} (h : idOther ≠ id) :
    eventsFor id (processMessage env idOther) = [] := by
  apply List.filter_eq_nil_iff.mpr
  intro e he
  have := processMessage_source env idOther e he
  simp [this, h]

lemma eventsFor_self (env : Env) (id : String) :
    eventsFor id (processMessage env id) = processMessage env id := by
  apply List.filter_eq_self.mpr
  intro e he
  simp [processMessage_source env id e he]

lemma eventsFor_saveCursor (id : String) (h : Nat) :
    eventsFor id [Event.saveCursor h] = [] := by
  simp [eventsFor, Event.source]

lemma processIds_fst_mem (env : Env) (y : String) :
    ∀ (ids processed : List String),
      (y ∈ (processIds env processed ids).1 ↔ y ∈ processed ∨ y ∈ ids) := by
  intro ids
  induction ids with
  | nil => intro p; simp [processIds]
  | cons x rest ih =>
    intro p
    by_cases hx : x ∈ p
    · rw [processIds, if_pos hx, ih]
      constructor
      · rintro (h | h)
        · exact Or.inl h
        · exact Or.inr (List.mem_cons_of_mem _ h)
      · rintro (h | h)
        · exact Or.inl h
        · rcases List.mem_cons.mp h with rfl | h2
          · exact Or.inl hx
          · exact Or.inr h2
    · rw [processIds, if_neg hx]
      simp only [ih (x :: p), List.mem_cons]
      tauto

lemma eventsFor_processIds (env : Env) (id : String) :
    ∀ (ids processed : List String),
      eventsFor id (processIds env processed ids).2 =
        if id ∈ processed then []
        else if id ∈ ids then processMessage env id else [] := by
  intro ids
  induction ids with
  | nil =>
    intro p
    simp [processIds, eventsFor]
  | cons x rest ih =>
    intro p
    by_cases hx : x ∈ p
    · rw [processIds, if_pos hx, ih]
      by_cases hp : id ∈ p
      · simp [hp]
      · have hne : id ≠ x := fun h => hp (h ▸ hx)
        simp [hp, List.mem_cons, hne]
    · rw [processIds, if_neg hx]
      simp only [eventsFor_append]
      by_cases hix : id = x
      · subst hix
        have hp : id ∉ p := hx
        rw [eventsFor_self, ih (id :: p), if_pos (List.mem_cons_self id p)]
        simp [hp]
      · rw [eventsFor_other env (fun h => hix h.symm), ih (x :: p)]
        by_cases hp : id ∈ p
        · simp [hp, List.mem_cons, hix]
        · have : id ∉ x :: p := by
            simp [List.mem_cons, hix, hp]
          rw [if_neg this]
          simp [hp, List.mem_cons, hix]

lemma processPage_fst_mem (env : Env) (y : String) (processed : List String) (pg : Page) :
    y ∈ (processPage env processed pg).1 ↔ y ∈ processed ∨ y ∈ pg.effIds := by
  unfold processPage Page.effIds
  split
  · simp_all
  · simp_all [processIds_fst_mem]

lemma eventsFor_processPage (env : Env) (id : String) (processed : List String) (pg : Page) :
    eventsFor id (processPage env processed pg).2 =
      if id ∈ processed then []
      else if id ∈ pg.effIds then processMessage env id else [] := by
  unfold processPage Page.effIds
  split
  · simp [eventsFor]
  · rw [eventsFor_append, eventsFor_processIds]
    have hcur : eventsFor id (if pg.historyId ≠ 0 then [Event.saveCursor pg.historyId] else []) = [] := by
      split
      · exact eventsFor_saveCursor id pg.historyId
      · rfl
    rw [hcur]
    simp

lemma processPages_fst_mem (env : Env) (y : String) :
    ∀ (pgs : List Page) (processed : List String),
      (y ∈ (processPages env processed pgs).1 ↔ y ∈ processed ∨ y ∈ effIds pgs) := by
  intro pgs
  induction pgs with
  | nil => intro p; simp [processPages, effIds]
  | cons pg rest ih =>
    intro p
    rw [processPages]
    show y ∈ (processPages env (processPage env p pg).1 rest).1 ↔ _
    rw [ih, processPage_fst_mem]
    simp only [effIds, List.map_cons, List.flatten_cons, List.mem_append]
    constructor
    · rintro ((h | h) | h)
      · exact Or.inl h
      · exact Or.inr (Or.inl h)
      · exact Or.inr (Or.inr (by simpa [effIds] using h))
    · rintro (h | h | h)
      · exact Or.inl (Or.inl h)
      · exact Or.inl (Or.inr h)
      · exact Or.inr (by simpa [effIds] using h)

lemma eventsFor_processPages (env : Env) (id : String) :
    ∀ (pgs : List Page) (processed : List String),
      eventsFor id (processPages env processed pgs).2 =
        if id ∈ processed then []
        else if id ∈ effIds pgs then processMessage env id else [] := by
  intro pgs
  induction pgs with
  | nil =>
    intro p
    simp [processPages, eventsFor, effIds]
  | cons pg rest ih =>
    intro p
    rw [processPages]
    show eventsFor id ((processPage env p pg).2 ++ (processPages env (processPage env p pg).1 rest).2) = _
    rw [eventsFor_append, eventsFor_processPage, ih]
    have hmem : id ∈ effIds (pg :: rest) ↔ id ∈ pg.effIds ∨ id ∈ effIds rest := by
      simp [effIds]
    by_cases hp : id ∈ p
    · have h1 : id ∈ (processPage env p pg).1 := (processPage_fst_mem env id p pg).mpr (Or.inl hp)
      simp [hp, h1]
    · by_cases hpg : id ∈ pg.effIds
      · have h1 : id ∈ (processPage env p pg).1 := (processPage_fst_mem env id p pg).mpr (Or.inr hpg)
        rw [if_neg hp, if_pos hpg, if_pos h1, if_neg hp, if_pos (hmem.mpr (Or.inl hpg))]
        simp
      · have h1 : id ∉ (processPage env p pg).1 := by
          rw [processPage_fst_mem]
          tauto
        rw [if_neg hp, if_neg hpg, if_neg h1, if_neg hp]
        by_cases hr : id ∈ effIds rest
        · rw [if_pos hr, if_pos (hmem.mpr (Or.inr hr))]
          simp
        · rw [if_neg hr, if_neg (by rw [hmem]; tauto)]
          simp

lemma eventsFor_lifetime (env : Env) (id : String) (pages : List Page) :
    eventsFor id (lifetimeEvents env pages) =
      if id ∈ effIds pages then processMessage env id else [] := by
  unfold lifetimeEvents
  rw [eventsFor_processPages]
  simp

lemma filter_eventsFor (p : Event → Bool) (id : String)
    (hp : ∀ e, p e = true → e.source = some id) :
    ∀ evs : List Event, (eventsFor id evs).filter p = evs.filter p := by
  intro evs
  induction evs with
  | nil => rfl
  | cons e rest ih =>
    by_cases hpe : p e = true
    · have hs : e.source = some id := hp e hpe
      simp only [eventsFor, List.filter_cons, hs] at *
      simp [hpe, ih]
    · by_cases hse : e.source = some id
      · simp only [eventsFor, List.filter_cons, hse] at *
        simp [hpe, ih]
      · simp only [eventsFor, List.filter_cons] at *
        simp [hpe, hse, ih]

lemma isFetchEv_source (id : String) (e : Event) (h : isFetchEv id e = true) :
    e.source = some id := by
  cases e <;> simp [isFetchEv] at h <;> simp [Event.source, h]

lemma isTranscribeEv_source (id : String) (e : Event) (h : isTranscribeEv id e = true) :
    e.source = some id := by
  cases e <;> simp [isTranscribeEv] at h <;> simp [Event.source, h]

lemma isSaveAttEv_source (id : String) (e : Event) (h : isSaveAttEv id e = true) :
    e.source = some id := by
  cases e <;> simp [isSaveAttEv] at h <;> simp [Event.source, h]

lemma fetchCount_lifetime (env : Env) (id : String) (pages : List Page) :
    fetchCount id (lifetimeEvents env pages) =
      if id ∈ effIds pages then fetchCount id (processMessage env id) else 0 := by
  unfold fetchCount
  rw [← filter_eventsFor (isFetchEv id) id (isFetchEv_source id), eventsFor_lifetime]
  split
  · rfl
  · rfl

lemma transcribeCount_lifetime (env : Env) (id : String) (pages : List Page) :
    transcribeCount id (lifetimeEvents env pages) =
      if id ∈ effIds pages then transcribeCount id (processMessage env id) else 0 := by
  unfold transcribeCount
  rw [← filter_eventsFor (isTranscribeEv id) id (isTranscribeEv_source id), eventsFor_lifetime]
  split
  · rfl
  · rfl

lemma processPart_not_fetch (env : Env) (id idf : String) (part : MessagePart) :
    ∀ e ∈ processPart env id part, isFetchEv idf e = false := by
  intro e he
  unfold processPart at he
  split at he
  · split at he
    · simp only [List.mem_cons, List.not_mem_nil, or_false] at he
      rcases he with rfl | rfl | rfl | rfl <;> rfl
    · simp only [List.mem_cons, List.not_mem_nil, or_false] at he
      subst he; rfl
  · simp at he

lemma processSenderGated_not_fetch (env : Env) (id idf : String) (msg : FullMessage) :
    ∀ e ∈ processSenderGated env id msg, isFetchEv idf e = false := by
  intro e he
  unfold processSenderGated at he
  split at he
  · simp at he
  · split at he
    · simp at he
    · rcases List.mem_flatten.mp he with ⟨l, hl, hel⟩
      rcases List.mem_map.mp hl with ⟨part, _, rfl⟩
      exact processPart_not_fetch env id idf part e hel

lemma fetchCount_processMessage (env : Env) (id : String) :
    fetchCount id (processMessage env id) = 1 := by
  unfold fetchCount processMessage
  split
  · simp [isFetchEv]
  · rw [List.filter_cons_of_pos (by simp [isFetchEv])]
    rw [List.filter_eq_nil_iff.mpr
      (fun e he => by simp [processSenderGated_not_fetch env id id _ e he])]
    rfl

/-! ## Concrete fixtures for witnesses -/

/-- Concrete attachment part used by witnesses. -/
def partW : MessagePart := { filename := "voicemail.wav", attachmentId := "att1" }

/-- Concrete allow-listed message used by witnesses. -/
def msgW : FullMessage :=
  { headers := [("From", "BT <noreply@btonephone.com>"),
                ("Subject", "Missed call from 07123456789")],
    parts := [partW] }

/-- Concrete environment with one fully processable message `"m1"`. -/
def envW : Env :=
  { fetch := fun i => if i = "m1" then some msgW else none,
    parseAddr := fun s =>
      if s = "BT <noreply@btonephone.com>" then some "noreply@btonephone.com" else none,
    saveAttOk := fun _ _ => true,
    transcribeOk := fun _ _ => true }

/-- Duplicate-heavy page sequence: `"m1"` delivered three times over two
passes. -/
def pagesW : List Page :=
  [{ historyNil := false, ids := ["m1", "m1"], historyId := 101 },
   { historyNil := false, ids := ["m1"], historyId := 102 }]

/-- Environment in which every collaborator call fails. -/
def envFailW : Env :=
  { fetch := fun _ => none,
    parseAddr := fun _ => none,
    saveAttOk := fun _ _ => false,
    transcribeOk := fun _ _ => false }

/-- Corrupt attachment part used by the partial-failure witness. -/
def partBadW : MessagePart := { filename := "corrupt.wav", attachmentId := "attBad" }

/-- Allow-listed message whose only attachment fails to save. -/
def msgBadW : FullMessage :=
  { headers := [("From", "BT <noreply@btonephone.com>"), ("Subject", "Missed call")],
    parts := [partBadW] }

/-- Environment with a failing message `"bad"` and a valid message
`"good"` on the same page: attachment saves succeed only for `"good"`. -/
def envMixedW : Env :=
  { fetch := fun i =>
      if i = "bad" then some msgBadW else if i = "good" then some msgW else none,
    parseAddr := fun s =>
      if s = "BT <noreply@btonephone.com>" then some "noreply@btonephone.com" else none,
    saveAttOk := fun i _ => decide (i = "good"),
    transcribeOk := fun _ _ => true }

/-- Message from a sender that is not allow-listed. -/
def msgOtherW : FullMessage :=
  { headers := [("From", "Eve <eve@example.com>"), ("Subject", "hello")],
    parts := [partW] }

/-- Environment with one message `"m2"` from a non-allow-listed sender. -/
def envOtherW : Env :=
  { fetch := fun i => if i = "m2" then some msgOtherW else none,
    parseAddr := fun s =>
      if s = "Eve <eve@example.com>" then some "eve@example.com" else none,
    saveAttOk := fun _ _ => true,
    transcribeOk := fun _ _ => true }

/-! ## Claims -/

/-- C1: for every sequence of duplicate notifications referencing the
same message id within one process lifetime, exactly one
transcription-and-reply dispatch is attempted for that id: the lifetime
trace restricted to the id equals the trace of one single dispatch (so
its transcription calls are exactly those of that one dispatch and the
message is fetched exactly once); `markIfNew` records the id and returns
true on first sight and returns false leaving the set unchanged on every
later sight; and a later occurrence of a recorded id is a no-op of the
walk. -/
theorem C1_dedup_idempotent (env : Env) (pages : List Page) (id : String)
    (hmem : id ∈ effIds pages) :
    eventsFor id (lifetimeEvents env pages) = processMessage env id ∧
    transcribeCount id (lifetimeEvents env pages) =
      transcribeCount id (processMessage env id) ∧
    fetchCount id (lifetimeEvents env pages) = 1 ∧
    (∀ processed, id ∉ processed →
        markIfNew processed id = (true, id :: processed)) ∧
    (∀ processed, id ∈ processed → markIfNew processed id = (false, processed)) ∧
    (∀ processed rest, id ∈ processed →
        processIds env processed (id :: rest) = processIds env processed rest) := by
  refine ⟨?_, ?_, ?_, ?_, ?_, ?_⟩
  · rw [eventsFor_lifetime, if_pos hmem]
  · rw [transcribeCount_lifetime, if_pos hmem]
  · rw [fetchCount_lifetime, if_pos hmem, fetchCount_processMessage]
  · intro p hp; simp [markIfNew, hp]
  · intro p hp; simp [markIfNew, hp]
  · intro p rest hp; simp [processIds, hp]

/-- Witness for C1: `"m1"` notified three times across two passes is
transcribed once and fetched once. -/
theorem C1_dedup_idempotent_witness :
    "m1" ∈ effIds pagesW ∧
    transcribeCount "m1" (lifetimeEvents envW pagesW) = 1 ∧
    fetchCount "m1" (lifetimeEvents envW pagesW) = 1 := by
  have h := C1_dedup_idempotent envW pagesW "m1" (by decide)
  refine ⟨by decide, ?_, h.2.2.1⟩
  rw [h.2.1]
  decide

/-- C9: a message id is recorded in `processedMessages` before its
content is fetched and the record is never rolled back, so across a
lifetime each id is fetched at most once — for every environment,
including those where the fetch, the sender parse or the downstream
processing fail — and every id a pass has observed is in the processed
set afterwards. -/
theorem C9_mark_before_fetch (env : Env) (pages : List Page) (id : String) :
    fetchCount id (lifetimeEvents env pages) ≤ 1 ∧
    (id ∈ effIds pages → id ∈ (processPages env [] pages).1) := by
  constructor
  · rw [fetchCount_lifetime]
    split
    · rw [fetchCount_processMessage]
    · exact Nat.zero_le 1
  · intro h
    exact (processPages_fst_mem env id pages []).mpr (Or.inr h)

/-- Witness for C9: with every collaborator call failing, `"m1"` is
still fetched at most once over three deliveries and ends up recorded. -/
theorem C9_mark_before_fetch_witness :
    fetchCount "m1" (lifetimeEvents envFailW pagesW) ≤ 1 ∧
    "m1" ∈ (processPages envFailW [] pagesW).1 := by
  have h := C9_mark_before_fetch envFailW pagesW "m1"
  exact ⟨h.1, h.2 (by decide)⟩

lemma processIds_fresh (env : Env) :
    ∀ (ids processed : List String), ids.Nodup → (∀ i ∈ ids, i ∉ processed) →
      (processIds env processed ids).2 = (ids.map (processMessage env)).flatten := by
  intro ids
  induction ids with
  | nil => intro p _ _; rfl
  | cons x rest ih =>
    intro p hnd hdisj
    rw [processIds, if_neg (hdisj x (List.mem_cons_self x rest))]
    show processMessage env x ++ (processIds env (x :: p) rest).2 = _
    simp only [List.map_cons, List.flatten_cons]
    congr 1
    apply ih (x :: p) (List.nodup_cons.mp hnd).2
    intro i hi
    simp only [List.mem_cons, not_or]
    exact ⟨fun he => (List.nodup_cons.mp hnd).1 (he ▸ hi),
           hdisj i (List.mem_cons_of_mem x hi)⟩

/-- C3: a page is never aborted by a per-message failure: for every
environment — including ones where any message's fetch, parse,
attachment save or transcription fails — the trace of a page of fresh
ids is the concatenation of each message's own trace (each depending
only on the environment and that id) followed by the cursor save, so
every message is processed irrespective of the others' failures and the
page's cursor value is persisted after the walk; in particular a page
with one failing and one valid message still fully processes the valid
one and saves the cursor. -/
theorem C3_partial_failure_isolation (env : Env) (processed : List String)
    (ids : List String) (id1 id2 : String) (hid : Nat)
    (hnd : ids.Nodup) (hdisj : ∀ i ∈ ids, i ∉ processed)
    (h1 : id1 ∉ processed) (h2 : id2 ∉ processed) (hne : id1 ≠ id2) (hh : hid ≠ 0) :
    (processPage env processed { historyNil := false, ids := ids, historyId := hid }).2 =
      (ids.map (processMessage env)).flatten ++ [Event.saveCursor hid] ∧
    Event.saveCursor hid ∈
      (processPage env processed { historyNil := false, ids := ids, historyId := hid }).2 ∧
    (processPage env processed { historyNil := false, ids := [id1, id2], historyId := hid }).2 =
      processMessage env id1 ++ processMessage env id2 ++ [Event.saveCursor hid] := by
  have key : ∀ l : List String, l.Nodup → (∀ i ∈ l, i ∉ processed) →
      (processPage env processed { historyNil := false, ids := l, historyId := hid }).2 =
        (l.map (processMessage env)).flatten ++ [Event.saveCursor hid] := by
    intro l hl hdl
    show (processIds env processed l).2 ++ _ = _
    rw [processIds_fresh env l processed hl hdl, if_pos hh]
  have hnd2 : ([id1, id2] : List String).Nodup := by simp [hne]
  have hdisj2 : ∀ i ∈ ([id1, id2] : List String), i ∉ processed := by
    intro i hi
    rcases List.mem_cons.mp hi with rfl | hi2
    · exact h1
    · simp only [List.mem_cons, List.not_mem_nil, or_false] at hi2
      exact hi2 ▸ h2
  refine ⟨key ids hnd hdisj, ?_, ?_⟩
  · rw [key ids hnd hdisj]
    simp
  · rw [key [id1, id2] hnd2 hdisj2]
    simp

/-- Witness for C3: page `["bad", "good"]` where `"bad"`'s attachment
save fails: `"good"` is still transcribed and the cursor 200 saved. -/
theorem C3_partial_failure_isolation_witness :
    (processPage envMixedW [] { historyNil := false, ids := ["bad", "good"], historyId := 200 }).2 =
      processMessage envMixedW "bad" ++ processMessage envMixedW "good" ++
        [Event.saveCursor 200] ∧
    Event.saveAtt "bad" "/tmp/corrupt.wav" false ∈
      (processPage envMixedW []
        { historyNil := false, ids := ["bad", "good"], historyId := 200 }).2 ∧
    Event.transcribe "good" "/tmp/voicemail.wav" true ∈
      (processPage envMixedW []
        { historyNil := false, ids := ["bad", "good"], historyId := 200 }).2 ∧
    Event.saveCursor 200 ∈
      (processPage envMixedW []
        { historyNil := false, ids := ["bad", "good"], historyId := 200 }).2 := by
  have h := C3_partial_failure_isolation envMixedW [] ["bad", "good"] "bad" "good" 200
    (by decide) (by decide) (by decide) (by decide) (by decide) (by decide)
  exact ⟨h.2.2, by decide, by decide, h.2.1⟩

/-- C7: a fetched message whose parsed `From` address differs from the
allow-listed sender is skipped: its trace is just the fetch — zero
attachment saves, zero transcription calls — and the walk continues
normally with the remaining ids (the skip is not an error). -/
theorem C7_sender_filter (env : Env) (id : String) (msg : FullMessage) (addr : String)
    (hf : env.fetch id = some msg)
    (hp : env.parseAddr (GetHeader msg.headers "From") = some addr)
    (hne : addr ≠ allowedSender) :
    processMessage env id = [Event.fetch id true] ∧
    saveAttCount id (processMessage env id) = 0 ∧
    transcribeCount id (processMessage env id) = 0 ∧
    (∀ processed rest, id ∉ processed →
      (processIds env processed (id :: rest)).2 =
        [Event.fetch id true] ++ (processIds env (id :: processed) rest).2) := by
  have hpm : processMessage env id = [Event.fetch id true] := by
    simp [processMessage, hf, processSenderGated, hp, hne]
  refine ⟨hpm, ?_, ?_, ?_⟩
  · rw [hpm]; simp [saveAttCount, isSaveAttEv]
  · rw [hpm]; simp [transcribeCount, isTranscribeEv]
  · intro p rest hmemp
    simp [processIds, hmemp, hpm]

/-- Witness for C7: `"m2"` from `eve@example.com` yields only its fetch
event and the walk proceeds to `"m3"`. -/
theorem C7_sender_filter_witness :
    processMessage envOtherW "m2" = [Event.fetch "m2" true] ∧
    saveAttCount "m2" (processMessage envOtherW "m2") = 0 ∧
    transcribeCount "m2" (processMessage envOtherW "m2") = 0 ∧
    (processIds envOtherW [] ["m2", "m3"]).2 =
      [Event.fetch "m2" true] ++ (processIds envOtherW ["m2"] ["m3"]).2 := by
  have h := C7_sender_filter envOtherW "m2" msgOtherW "eve@example.com"
    (by decide) (by decide) (by decide)
  exact ⟨h.1, h.2.1, h.2.2.1, h.2.2.2 [] ["m3"] (by decide)⟩

/-- C4: for every saved attachment, the per-part step emits, after the
transcription call and independently of its outcome, first the removal
of the transient local file and then the mark-as-read: the file does not
exist in the local file system after the step, and the removal precedes
the mark-as-read in the trace. -/
theorem C4_cleanup_invariant (env : Env) (id : String) (part : MessagePart)
    (hfn : part.filename ≠ "") (hatt : part.attachmentId ≠ "")
    (hsave : env.saveAttOk id part = true) :
    processPart env id part =
      [Event.saveAtt id (attachmentPath part) true,
       Event.transcribe id (attachmentPath part) (env.transcribeOk id (attachmentPath part)),
       Event.removeFile id (attachmentPath part),
       Event.markRead id] ∧
    (∀ fs : String → Bool,
      applyFS (processPart env id part) fs (attachmentPath part) = false) ∧
    (∃ pre mid suf : List Event,
      processPart env id part =
        pre ++ Event.removeFile id (attachmentPath part) ::
          (mid ++ Event.markRead id :: suf)) := by
  have hpp : processPart env id part =
      [Event.saveAtt id (attachmentPath part) true,
       Event.transcribe id (attachmentPath part) (env.transcribeOk id (attachmentPath part)),
       Event.removeFile id (attachmentPath part),
       Event.markRead id] := by
    unfold processPart
    rw [if_pos ⟨hfn, hatt⟩, if_pos hsave]
  refine ⟨hpp, ?_, ?_⟩
  · intro fs
    rw [hpp]
    simp [applyFS]
  · exact ⟨[Event.saveAtt id (attachmentPath part) true,
            Event.transcribe id (attachmentPath part)
              (env.transcribeOk id (attachmentPath part))],
           [], [], by rw [hpp]; rfl⟩

/-- Witness for C4: the concrete valid attachment of `envW` is removed
from an arbitrary starting file system and the removal precedes the
mark-as-read. -/
theorem C4_cleanup_invariant_witness :
    processPart envW "m1" partW =
      [Event.saveAtt "m1" "/tmp/voicemail.wav" true,
       Event.transcribe "m1" "/tmp/voicemail.wav" true,
       Event.removeFile "m1" "/tmp/voicemail.wav",
       Event.markRead "m1"] ∧
    applyFS (processPart envW "m1" partW) (fun _ => true) "/tmp/voicemail.wav" = false := by
  have h := C4_cleanup_invariant envW "m1" partW (by decide) (by decide) (by decide)
  exact ⟨h.1, h.2.1 (fun _ => true)⟩

/-- Counterexample for C2 as stated: saving 100 and then 50 leaves 50 in
the checkpoint store — the save of the lower cursor is neither rejected
nor ignored, so the stored value has decreased below its previous value. -/
theorem C2_counterexample :
    (SaveHistoryIDToFirestore { historyDoc := none } 100).historyDoc = some 100 ∧
    (SaveHistoryIDToFirestore (SaveHistoryIDToFirestore { historyDoc := none } 100) 50).historyDoc
      = some 50 ∧
    ¬ (100 : Int) ≤ 50 := by
  refine ⟨by decide, by decide, by decide⟩

/-- C2 amended: `SaveHistoryIDToFirestore` is an unconditional
last-write-wins overwrite: after a save the stored value is `int64(id)`
for the id just saved, independent of the previously stored value; no
comparison with, rejection of, or lower-bound check against the previous
cursor exists, so the persisted cursor is non-decreasing only when the
sequence of saved values is. -/
theorem C2_save_unconditional (st : FirestoreState) (id : Nat) :
    (SaveHistoryIDToFirestore st id).historyDoc = some (toInt64 id) ∧
    SaveHistoryIDToFirestore st id = SaveHistoryIDToFirestore { historyDoc := none } id :=
  ⟨rfl, rfl⟩

/-- Counterexample for C6 as stated: with the token ready, a well-formed
envelope and all clients available, a pass that fails at pass level
(expired start cursor) still gets a 200 OK response — not a 5xx/503 —
because `retrieveHistory` only logs the error and returns nothing. -/
theorem C6_counterexample :
    PubSubHandler true (Envelope.ok "user@example.com" 7) true true true true
        envFailW [] [] (some PassError.expiredCursor) = some (200, []) ∧
    ¬ 500 ≤ 200 ∧ (200 : Nat) ≠ 503 := by
  refine ⟨rfl, by decide, by decide⟩

/-- C6 amended: pass-level errors do not propagate to the entry point:
`retrieveHistory` has no return value and only logs them, and
`PubSubHandler` responds 200 OK whenever the token is ready, the
envelope decodes and client setup succeeds — for every pass outcome,
expired-cursor and mailbox-auth failures included; the 503
service-unavailable response arises only from the token-not-ready gate,
before any pass runs. -/
theorem C6_entry_ok_despite_pass_error (a : String) (hid : Nat) (env : Env)
    (processed : List String) (pages : List Page) (e1 e2 : Option PassError) :
    PubSubHandler true (Envelope.ok a hid) true true true true env processed pages e1 =
      some (200, (processPages env processed pages).2) ∧
    PubSubHandler true (Envelope.ok a hid) true true true true env processed pages e1 =
      PubSubHandler true (Envelope.ok a hid) true true true true env processed pages e2 ∧
    PubSubHandler false (Envelope.ok a hid) true true true true env processed pages e1 =
      some (503, []) :=
  ⟨rfl, rfl, rfl⟩

/-! ## Phone-matcher lemmas -/

/-- Sub-list containment: `needle` appears contiguously inside `hay`. -/
def occursIn (needle hay : List Char) : Prop :=
  ∃ p s, p ++ needle ++ s = hay

lemma string_data_append (a b : String) : (a ++ b).data = a.data ++ b.data := by
  cases a; cases b; rfl

lemma phoneMatchAt_length {s : List Char} {i : Nat} (h : phoneMatchAt s i = true) :
    i + 11 ≤ s.length := by
  simp only [phoneMatchAt, Bool.and_eq_true, decide_eq_true_eq] at h
  exact h.1.1.1.1.1

lemma findPhoneIdxAux_some (s : List Char) :
    ∀ (fuel i j : Nat), findPhoneIdxAux s i fuel = some j →
      phoneMatchAt s j = true ∧ i ≤ j ∧ ∀ k, i ≤ k → k < j → phoneMatchAt s k = false := by
  intro fuel
  induction fuel with
  | zero => intro i j h; simp [findPhoneIdxAux] at h
  | succ f ih =>
    intro i j h
    unfold findPhoneIdxAux at h
    by_cases hm : phoneMatchAt s i = true
    · rw [if_pos hm] at h
      obtain rfl : i = j := Option.some.inj h
      exact ⟨hm, Nat.le_refl i, fun k hk1 hk2 => absurd hk1 (Nat.not_le.mpr hk2)⟩
    · rw [if_neg hm] at h
      obtain ⟨h1, h2, h3⟩ := ih (i + 1) j h
      refine ⟨h1, Nat.le_trans (Nat.le_succ i) h2, fun k hk1 hk2 => ?_⟩
      rcases Nat.eq_or_lt_of_le hk1 with rfl | hlt
      · exact Bool.eq_false_iff.mpr hm
      · exact h3 k hlt hk2

lemma findPhoneIdx_none {s : List Char} (hall : ∀ i, i < s.length → phoneMatchAt s i = false) :
    findPhoneIdx s = none := by
  cases hfi : findPhoneIdx s with
  | none => rfl
  | some i =>
    obtain ⟨h1, -, -⟩ := findPhoneIdxAux_some s (s.length + 1) 0 i hfi
    have hlen : i + 11 ≤ s.length := phoneMatchAt_length h1
    have : phoneMatchAt s i = false := hall i (by omega)
    rw [h1] at this
    cases this

/-! ## Claims about the transcriber -/

/-- Counterexample for C5 as stated: a Deepgram response with no
transcript at all (empty decoded map) is not treated as a failure — the
reply is still composed, embeds the `"No transcript available."`
placeholder, and is sent successfully. -/
theorem C5_counterexample :
    TranscribeAndRespond (Except.ok []) true "boss@example.com" "Missed call" =
      TAROutcome.sent
        { recipient := "boss@example.com",
          subject := "Your Voicemail Transcription",
          body := "Caller: Unknown\n\nNo transcript available." } true := by
  decide

/-- C5 amended: an empty or missing transcript is not treated as a
failure: whatever transcript text `extractTranscript` yields — the
`"No transcript available."` placeholder for missing shapes, or the
empty string — `TranscribeAndRespond` composes the reply embedding it
and hands it to the send step, returning an error only on transcription
transport failure (or when the send itself fails). -/
theorem C5_empty_transcript_sends_anyway (resMap : List (String × JVal))
    (t : String) (sendOk : Bool) (addr subj : String)
    (h : extractTranscript resMap = Except.ok t) :
    TranscribeAndRespond (Except.ok resMap) sendOk addr subj =
      TAROutcome.sent
        { recipient := addr,
          subject := "Your Voicemail Transcription",
          body := replyBody subj t } sendOk ∧
    TranscribeAndRespond (Except.error ()) sendOk addr subj = TAROutcome.transportErr := by
  constructor
  · simp [TranscribeAndRespond, h]
  · rfl

/-- Witness for C5's amended claim at the empty response map. -/
theorem C5_empty_transcript_sends_anyway_witness :
    TranscribeAndRespond (Except.ok []) false "a@b.example" "subj" =
      TAROutcome.sent
        { recipient := "a@b.example",
          subject := "Your Voicemail Transcription",
          body := replyBody "subj" noTranscript } false :=
  (C5_empty_transcript_sends_anyway [] noTranscript false "a@b.example" "subj" rfl).1

/-- C8: the reply body always embeds the transcript text and a caller
identifier derived from the subject: when the subject contains a
whole-word `07` + nine-digits pattern, the identifier is the leftmost
such match (`findPhoneIdx` returns its position, there is no earlier
match, and the eleven characters at that position are embedded); when no
position of the subject matches, the explicit `"Unknown"` placeholder is
embedded instead of failing. -/
theorem C8_reply_contents (subject transcript : String) :
    occursIn transcript.data (replyBody subject transcript).data ∧
    occursIn (extractPhoneNumber subject).data (replyBody subject transcript).data ∧
    (∀ i, findPhoneIdx subject.data = some i →
      phoneMatchAt subject.data i = true ∧
      (∀ j, j < i → phoneMatchAt subject.data j = false) ∧
      extractPhoneNumber subject = String.mk ((subject.data.drop i).take 11)) ∧
    ((∀ i, i < subject.data.length → phoneMatchAt subject.data i = false) →
      extractPhoneNumber subject = "Unknown") := by
  have hdata : (replyBody subject transcript).data =
      "Caller: ".data ++ (extractPhoneNumber subject).data ++ "\n\n".data ++
        transcript.data := by
    unfold replyBody
    rw [string_data_append, string_data_append, string_data_append]
  refine ⟨?_, ?_, ?_, ?_⟩
  · refine ⟨"Caller: ".data ++ (extractPhoneNumber subject).data ++ "\n\n".data, [], ?_⟩
    rw [List.append_nil, hdata]
  · refine ⟨"Caller: ".data, "\n\n".data ++ transcript.data, ?_⟩
    rw [hdata]
    simp [List.append_assoc]
  · intro i hi
    obtain ⟨h1, -, h3⟩ := findPhoneIdxAux_some subject.data (subject.data.length + 1) 0 i hi
    refine ⟨h1, fun j hj => h3 j (Nat.zero_le j) hj, ?_⟩
    unfold extractPhoneNumber
    rw [hi]
  · intro hall
    unfold extractPhoneNumber
    rw [findPhoneIdx_none hall]

/-- Witness for C8 on the specification's scenario subject. -/
theorem C8_reply_contents_witness :
    occursIn "Hello there".data
      (replyBody "Missed call from 07123456789" "Hello there").data ∧
    extractPhoneNumber "Missed call from 07123456789" = "07123456789" ∧
    occursIn "07123456789".data
      (replyBody "Missed call from 07123456789" "Hello there").data ∧
    extractPhoneNumber "no number here" = "Unknown" := by
  have h := C8_reply_contents "Missed call from 07123456789" "Hello there"
  have h2 := C8_reply_contents "no number here" "x"
  have hph : extractPhoneNumber "Missed call from 07123456789" = "07123456789" := by
    have h3 := h.2.2.1 17 (by decide)
    rw [h3.2.2]
    decide
  refine ⟨h.1, hph, ?_, h2.2.2.2 (by decide)⟩
  have h4 := h.2.1
  rw [hph] at h4
  exact h4

/-- C10: `extractTranscript` is not total over arbitrary decoded
response maps. Whenever `"results"` is present but not an object, the
`"channels"` value is present but not a list, a present first channel is
not an object, the `"alternatives"` value is present but not a list, or
a present first alternative is not an object, the helper panics through
an unchecked type cast (`Except.error ()`). The
`"No transcript available."` default is produced only when a key along
the path is absent, one of the two lists is empty, or the transcript
value is not a string (or, degenerately, when the transcript is the
string equal to the default text itself); and a well-shaped response
with a string transcript returns that transcript. -/
theorem C10_extract_not_total (resMap : List (String × JVal)) :
    (∀ v, jlookup resMap "results" = some v → JVal.isObj v = false →
        extractTranscript resMap = Except.error ()) ∧
    (∀ ro v, jlookup resMap "results" = some (JVal.obj ro) →
        jlookup ro "channels" = some v → JVal.isArr v = false →
        extractTranscript resMap = Except.error ()) ∧
    (∀ ro c0 cs, jlookup resMap "results" = some (JVal.obj ro) →
        jlookup ro "channels" = some (JVal.arr (c0 :: cs)) → JVal.isObj c0 = false →
        extractTranscript resMap = Except.error ()) ∧
    (∀ ro c0o cs v, jlookup resMap "results" = some (JVal.obj ro) →
        jlookup ro "channels" = some (JVal.arr (JVal.obj c0o :: cs)) →
        jlookup c0o "alternatives" = some v → JVal.isArr v = false →
        extractTranscript resMap = Except.error ()) ∧
    (∀ ro c0o cs a0 rest, jlookup resMap "results" = some (JVal.obj ro) →
        jlookup ro "channels" = some (JVal.arr (JVal.obj c0o :: cs)) →
        jlookup c0o "alternatives" = some (JVal.arr (a0 :: rest)) → JVal.isObj a0 = false →
        extractTranscript resMap = Except.error ()) ∧
    (extractTranscript resMap = Except.ok noTranscript →
        jlookup resMap "results" = none ∨
        (∃ ro, jlookup resMap "results" = some (JVal.obj ro) ∧
          (jlookup ro "channels" = none ∨
           jlookup ro "channels" = some (JVal.arr []) ∨
           (∃ c0o cs, jlookup ro "channels" = some (JVal.arr (JVal.obj c0o :: cs)) ∧
             (jlookup c0o "alternatives" = none ∨
              jlookup c0o "alternatives" = some (JVal.arr []) ∨
              (∃ a0o rest,
                jlookup c0o "alternatives" = some (JVal.arr (JVal.obj a0o :: rest)) ∧
                (jlookup a0o "transcript" = none ∨
                 (∃ v, jlookup a0o "transcript" = some v ∧ JVal.isStr v = false) ∨
                 jlookup a0o "transcript" = some (JVal.str noTranscript)))))))) ∧
    (∀ ro c0o cs a0o rest t,
        jlookup resMap "results" = some (JVal.obj ro) →
        jlookup ro "channels" = some (JVal.arr (JVal.obj c0o :: cs)) →
        jlookup c0o "alternatives" = some (JVal.arr (JVal.obj a0o :: rest)) →
        jlookup a0o "transcript" = some (JVal.str t) →
        extractTranscript resMap = Except.ok t) := by
  refine ⟨?_, ?_, ?_, ?_, ?_, ?_, ?_⟩
  · intro v h1 hno
    simp only [extractTranscript, h1]
    cases v
    case obj => simp [JVal.isObj] at hno
    all_goals rfl
  · intro ro v h1 h2 hno
    simp only [extractTranscript, h1, h2]
    cases v
    case arr => simp [JVal.isArr] at hno
    all_goals rfl
  · intro ro c0 cs h1 h2 hno
    simp only [extractTranscript, h1, h2]
    cases c0
    case obj => simp [JVal.isObj] at hno
    all_goals rfl
  · intro ro c0o cs v h1 h2 h3 hno
    simp only [extractTranscript, h1, h2, h3]
    cases v
    case arr => simp [JVal.isArr] at hno
    all_goals rfl
  · intro ro c0o cs a0 rest h1 h2 h3 hno
    simp only [extractTranscript, h1, h2, h3]
    cases a0
    case obj => simp [JVal.isObj] at hno
    all_goals rfl
  · intro h
    unfold extractTranscript at h
    cases hr : jlookup resMap "results" with
    | none => exact Or.inl rfl
    | some results =>
      simp only [hr] at h
      cases results
      case obj ro =>
        refine Or.inr ⟨ro, rfl, ?_⟩
        cases hc : jlookup ro "channels" with
        | none => exact Or.inl rfl
        | some channels =>
          simp only [hc] at h
          cases channels
          case arr channelSlice =>
            cases channelSlice with
            | nil => exact Or.inr (Or.inl rfl)
            | cons c0 cs =>
              cases c0
              case obj c0o =>
                refine Or.inr (Or.inr ⟨c0o, cs, rfl, ?_⟩)
                cases ha : jlookup c0o "alternatives" with
                | none => exact Or.inl rfl
                | some alternatives =>
                  simp only [ha] at h
                  cases alternatives
                  case arr altSlice =>
                    cases altSlice with
                    | nil => exact Or.inr (Or.inl rfl)
                    | cons a0 rest =>
                      cases a0
                      case obj a0o =>
                        refine Or.inr (Or.inr ⟨a0o, rest, rfl, ?_⟩)
                        cases ht : jlookup a0o "transcript" with
                        | none => exact Or.inl rfl
                        | some tv =>
                          simp only [ht] at h
                          cases tv
                          case str s =>
                            have hs : s = noTranscript := by
                              have h2 : Except.ok (ε := Unit) s =
                                  Except.ok noTranscript := h
                              injection h2
                            exact Or.inr (Or.inr (by rw [hs]))
                          case null => exact Or.inr (Or.inl ⟨JVal.null, rfl, rfl⟩)
                          case bool b => exact Or.inr (Or.inl ⟨JVal.bool b, rfl, rfl⟩)
                          case num n => exact Or.inr (Or.inl ⟨JVal.num n, rfl, rfl⟩)
                          case arr l => exact Or.inr (Or.inl ⟨JVal.arr l, rfl, rfl⟩)
                          case obj l => exact Or.inr (Or.inl ⟨JVal.obj l, rfl, rfl⟩)
                      all_goals simp at h
                  all_goals simp at h
              all_goals simp at h
          all_goals simp at h
      all_goals simp at h
  · intro ro c0o cs a0o rest t h1 h2 h3 h4
    simp only [extractTranscript, h1, h2, h3, h4]

/-- Well-shaped Deepgram response used by the C10 witness. -/
def goodMapW : List (String × JVal) :=
  [("results", JVal.obj [("channels", JVal.arr [JVal.obj [("alternatives",
     JVal.arr [JVal.obj [("transcript", JVal.str "hi")]])]])])]

/-- Witness for C10: a non-object `"results"` value panics, a non-list
`"channels"` value panics, and a well-shaped response returns its
transcript. -/
theorem C10_extract_not_total_witness :
    extractTranscript [("results", JVal.str "oops")] = Except.error () ∧
    extractTranscript [("results", JVal.obj [("channels", JVal.num 3)])] =
      Except.error () ∧
    extractTranscript goodMapW = Except.ok "hi" := by
  refine ⟨?_, ?_, ?_⟩
  · exact (C10_extract_not_total [("results", JVal.str "oops")]).1
      (JVal.str "oops") rfl rfl
  · exact (C10_extract_not_total [("results", JVal.obj [("channels", JVal.num 3)])]).2.1
      [("channels", JVal.num 3)] (JVal.num 3) rfl rfl rfl
  · exact (C10_extract_not_total goodMapW).2.2.2.2.2.2
      [("channels", JVal.arr [JVal.obj [("alternatives",
        JVal.arr [JVal.obj [("transcript", JVal.str "hi")]])]])]
      [("alternatives", JVal.arr [JVal.obj [("transcript", JVal.str "hi")]])] []
      [("transcript", JVal.str "hi")] [] "hi" rfl rfl rfl rfl

end Voicemail


